/-
Verification development for the `frontend-ai` repository: a shallow
embedding, in Lean 4, of the client-side validation, error-handling,
polling and configuration-editing logic found in

  * src/utils/api.js          (ErrorHandler, validateFile, validateTrainingConfig)
  * src/components/TrainingResults.js   (pollTrainingProgress)
  * src/components/TrainingConfig.js    (addLayer, removeLayer)
  * src/components/ModelTesting.js      (session-header request building)
  * src/components/GradCAMViewer.js     (sample-index navigation)
  * src/App.js                          (application-level state transitions)

JavaScript numbers are modelled as exact rationals (ℚ); IEEE-754 rounding
is abstracted away, which is irrelevant for the range checks and control
flow verified here.  JavaScript strings are modelled as Lean `String`
(a list of characters); `undefined`/absent values as `Option`.
-/
import Mathlib

set_option maxHeartbeats 1000000

/-! ## JavaScript string primitives

`String.prototype.includes`, `toLowerCase`, `trim`, `split` are modelled
on the character list underlying a Lean `String`. -/

/-- JS `String.prototype.toLowerCase` (ASCII letters, as used by the code). -/
def strLower (s : String) : String := ⟨s.toList.map Char.toLower⟩

/-- JS `String.prototype.includes pat`: `pat` occurs as a contiguous substring. -/
def strContains (s pat : String) : Bool := decide (pat.toList <:+: s.toList)

/-- JS `String.prototype.trim` on a character list: strip leading and
trailing whitespace. -/
def trimChars (l : List Char) : List Char :=
  ((l.dropWhile Char.isWhitespace).reverse.dropWhile Char.isWhitespace).reverse

/-- JS `String.prototype.trim`. -/
def jsTrim (s : String) : String := ⟨trimChars s.toList⟩

/-- JS `str.split(sep)` for a one-character separator, on character lists.
`[] ↦ [[]]` matches `"".split(",") === [""]`. -/
def splitChar (sep : Char) : List Char → List (List Char)
  | [] => [[]]
  | c :: cs =>
    if c = sep then [] :: splitChar sep cs
    else
      match splitChar sep cs with
      | [] => [[c]]
      | g :: gs => (c :: g) :: gs

/-! ## JS `parseFloat`

`parseFloat` (ECMA-262 §19.2.4): skip leading whitespace, read an optional
sign, then either the literal `Infinity` or a decimal mantissa
(`digits [. digits]`, at least one digit) with an optional exponent part;
trailing garbage is ignored; if no numeric prefix exists the result is
`NaN` (modelled as `none`).  The finite value is represented exactly in ℚ. -/

/-- A JavaScript number produced by `parseFloat`: a finite value or ±Infinity. -/
inductive JsNum where
  | num (q : ℚ)
  | inf (neg : Bool)
deriving DecidableEq, Repr

/-- Numeric value of a digit string, most significant first. -/
def digitsVal (l : List Char) : ℕ :=
  l.foldl (fun a c => 10 * a + (c.toNat - ('0').toNat)) 0

/-- Exponent part of `parseFloat`: `e`/`E`, optional sign, digits; an
exponent marker not followed by a digit is ignored (exponent 0). -/
def parseExp (l : List Char) : ℤ :=
  match l with
  | 'e' :: r => parseExpTail r
  | 'E' :: r => parseExpTail r
  | _ => 0
where
  parseExpTail : List Char → ℤ
  | '+' :: r => parseExpDigits r false
  | '-' :: r => parseExpDigits r true
  | r => parseExpDigits r false
  parseExpDigits (r : List Char) (neg : Bool) : ℤ :=
    let ds := r.takeWhile Char.isDigit
    if ds = [] then 0
    else if neg then -(digitsVal ds : ℤ) else (digitsVal ds : ℤ)

/-- Mantissa and exponent of `parseFloat` after the optional sign. -/
def parseUnsigned (s : List Char) (neg : Bool) : Option JsNum :=
  if ("Infinity".toList).isPrefixOf s then some (JsNum.inf neg)
  else
    let intDigits := s.takeWhile Char.isDigit
    let rest1 := s.dropWhile Char.isDigit
    let fracDigits :=
      match rest1 with
      | '.' :: r => r.takeWhile Char.isDigit
      | _ => []
    let rest2 :=
      match rest1 with
      | '.' :: r => r.dropWhile Char.isDigit
      | _ => rest1
    if intDigits = [] ∧ fracDigits = [] then none
    else
      let mant : ℚ := (digitsVal (intDigits ++ fracDigits) : ℚ) / (10 ^ fracDigits.length)
      let e : ℤ := parseExp rest2
      let v : ℚ := mant * (10 : ℚ) ^ e
      some (JsNum.num (if neg then -v else v))

/-- JS `parseFloat` on a character list. -/
def jsParseFloat (s : List Char) : Option JsNum :=
  match s.dropWhile Char.isWhitespace with
  | '+' :: rest => parseUnsigned rest false
  | '-' :: rest => parseUnsigned rest true
  | rest => parseUnsigned rest false

/-! ## `ErrorHandler.getErrorSeverity`  (src/utils/api.js lines 245–265) -/

/-- The `criticalPatterns` array of `getErrorSeverity`. -/
def criticalPatterns : List String :=
  ["server error", "network error", "failed to fetch", "service unavailable"]

/-- The `warningPatterns` array of `getErrorSeverity`. -/
def warningPatterns : List String :=
  ["validation", "invalid input", "not found", "expired"]

/-- `ErrorHandler.getErrorSeverity(message)`: lowercase the message and
return the first matching severity tier. -/
def getErrorSeverity (message : String) : String :=
  let lowercaseMessage := strLower message
  if criticalPatterns.any (fun p => strContains lowercaseMessage p) then "critical"
  else if warningPatterns.any (fun p => strContains lowercaseMessage p) then "warning"
  else "info"

example : getErrorSeverity "Network Error occurred" = "critical" := by decide
example : getErrorSeverity "Input validation failed" = "warning" := by decide
example : getErrorSeverity "all good" = "info" := by decide

/-- C5: `getErrorSeverity` returns exactly one of `critical`, `warning`,
`info`; `critical` iff the lowercased message contains a critical pattern;
otherwise `warning` iff it contains a warning pattern; otherwise `info`. -/
theorem getErrorSeverity_trichotomy (message : String) :
    (getErrorSeverity message = "critical" ∨ getErrorSeverity message = "warning" ∨
      getErrorSeverity message = "info")
    ∧ (getErrorSeverity message = "critical" ↔
        criticalPatterns.any (fun p => strContains (strLower message) p) = true)
    ∧ (getErrorSeverity message = "warning" ↔
        criticalPatterns.any (fun p => strContains (strLower message) p) = false ∧
        warningPatterns.any (fun p => strContains (strLower message) p) = true)
    ∧ (getErrorSeverity message = "info" ↔
        criticalPatterns.any (fun p => strContains (strLower message) p) = false ∧
        warningPatterns.any (fun p => strContains (strLower message) p) = false) := by
  unfold getErrorSeverity
  rcases hc : criticalPatterns.any (fun p => strContains (strLower message) p) <;>
    rcases hw : warningPatterns.any (fun p => strContains (strLower message) p) <;>
    simp [hc, hw]

/-- C5 witness: the trichotomy evaluated at a concrete message. -/
theorem getErrorSeverity_trichotomy_witness :
    getErrorSeverity "Failed to fetch resource" = "critical" :=
  (getErrorSeverity_trichotomy "Failed to fetch resource").2.1.mpr (by decide)

/-! ## `ErrorHandler.shouldNotRetry` / `createRetryHandler`
(src/utils/api.js lines 395–439)

The wrapped `operation` is modelled as a function from the attempt number
(1-based, as in the JS `for` loop) to `Except String α`: `.error msg`
models a thrown error with message `msg`.  The wrapper's run is recorded
as the produced result (`.error none` models `throw undefined`, reachable
only when `maxRetries = 0`), the number of invocations actually made and
the list of waits performed between consecutive attempts. -/

/-- The `noRetryPatterns` array of `shouldNotRetry`. -/
def noRetryPatterns : List String :=
  ["validation", "invalid input", "not found", "unauthorized", "forbidden", "bad request"]

/-- `ErrorHandler.shouldNotRetry(error)`: the lowercased message contains
one of the non-retryable patterns. -/
def shouldNotRetry (msg : String) : Bool :=
  noRetryPatterns.any (fun p => strContains (strLower msg) p)

/-- Trace of one run of the function returned by `createRetryHandler`. -/
structure RetryOutcome (α : Type) where
  result : Except (Option String) α
  attemptsMade : ℕ
  waits : List ℕ
deriving Repr

/-- The `for (let attempt = 1; attempt <= maxRetries; attempt++)` loop of
`createRetryHandler`, with `fuel = maxRetries - attempt + 1` remaining
iterations.  On success the result is returned; on a thrown error the loop
breaks if `shouldNotRetry`, otherwise waits `delay * attempt` ms unless
this was the last attempt; falling out of the loop throws the last error. -/
def retryLoop (ops : ℕ → Except String α) (delay : ℕ) :
    (attempt fuel : ℕ) → Option String → RetryOutcome α
  | _, 0, lastError => ⟨.error lastError, 0, []⟩
  | attempt, fuel + 1, _ =>
    match ops attempt with
    | .ok v => ⟨.ok v, 1, []⟩
    | .error e =>
      if shouldNotRetry e then ⟨.error (some e), 1, []⟩
      else if fuel = 0 then ⟨.error (some e), 1, []⟩
      else
        let rest := retryLoop ops delay (attempt + 1) fuel (some e)
        ⟨rest.result, rest.attemptsMade + 1, delay * attempt :: rest.waits⟩

/-- A run of `ErrorHandler.createRetryHandler(operation, maxRetries, delay)`
(JS defaults: `maxRetries = 3`, `delay = 1000`). -/
def createRetryHandlerRun (ops : ℕ → Except String α) (maxRetries delay : ℕ) :
    RetryOutcome α :=
  retryLoop ops delay 1 maxRetries none

/-- Retryable failure at a given attempt. -/
def retryableFailure (ops : ℕ → Except String α) (j : ℕ) : Prop :=
  ∃ e, ops j = .error e ∧ shouldNotRetry e = false

instance (ops : ℕ → Except String α) (j : ℕ) : Decidable (retryableFailure ops j) :=
  match h : ops j with
  | .ok _ => .isFalse (by rintro ⟨e, he, -⟩; rw [h] at he; cases he)
  | .error e =>
    if hn : shouldNotRetry e = false then .isTrue ⟨e, h, hn⟩
    else .isFalse (by rintro ⟨e', he', hn'⟩; rw [h] at he'; cases he'; exact hn hn')

/-- The loop makes at most as many invocations as it has iterations left. -/
theorem retryLoop_attempts_le (ops : ℕ → Except String α) (delay attempt fuel : ℕ)
    (le : Option String) :
    (retryLoop ops delay attempt fuel le).attemptsMade ≤ fuel := by
  induction fuel generalizing attempt le with
  | zero => simp [retryLoop]
  | succ n ih =>
    simp only [retryLoop]
    cases h : ops attempt with
    | ok v => simp
    | error e =>
      simp only
      split
      · simp
      · split
        · simp
        · have := ih (attempt + 1) (some e)
          simp only [RetryOutcome.mk.injEq]
          omega

/-- With at least one iteration left, the loop makes at least one invocation. -/
theorem retryLoop_attempts_pos (ops : ℕ → Except String α) (delay attempt fuel : ℕ)
    (le : Option String) (h : 0 < fuel) :
    0 < (retryLoop ops delay attempt fuel le).attemptsMade := by
  cases fuel with
  | zero => omega
  | succ n =>
    simp only [retryLoop]
    cases hop : ops attempt with
    | ok v => simp
    | error e =>
      simp only
      split
      · simp
      · split
        · simp
        · simp

/-- The waits performed are `delay * a` for the successive attempt numbers
`a = attempt, attempt+1, …`, one fewer than the invocations made. -/
theorem retryLoop_waits (ops : ℕ → Except String α) (delay attempt fuel : ℕ)
    (le : Option String) :
    (retryLoop ops delay attempt fuel le).waits =
      (List.range ((retryLoop ops delay attempt fuel le).attemptsMade - 1)).map
        (fun i => delay * (attempt + i)) := by
  induction fuel generalizing attempt le with
  | zero => simp [retryLoop]
  | succ n ih =>
    simp only [retryLoop]
    cases hop : ops attempt with
    | ok v => simp
    | error e =>
      simp only
      split
      · simp
      · split
        · simp
        · rename_i hfuel
          have hpos : 0 < (retryLoop ops delay (attempt + 1) n (some e)).attemptsMade :=
            retryLoop_attempts_pos ops delay (attempt + 1) n (some e) (by omega)
          simp only
          obtain ⟨m, hm⟩ : ∃ m,
              (retryLoop ops delay (attempt + 1) n (some e)).attemptsMade = m + 1 :=
            ⟨_, (Nat.succ_pred_eq_of_pos hpos).symm⟩
          rw [ih (attempt + 1) (some e), hm]
          simp only [Nat.add_sub_cancel, Nat.succ_sub_one, List.range_succ_eq_map,
            List.map_cons, List.map_map, Nat.add_zero, Nat.mul_comm]
          congr 1
          apply List.map_congr_left
          intro i _
          simp only [Function.comp_apply, Nat.succ_eq_add_one]
          ring

/-- If attempt `k` succeeds and every earlier attempt in range is a
retryable failure, the loop returns that success after exactly
`k - attempt + 1` invocations. -/
theorem retryLoop_success (ops : ℕ → Except String α) (delay attempt fuel k : ℕ)
    (le : Option String) (v : α)
    (hk1 : attempt ≤ k) (hk2 : k < attempt + fuel) (hops : ops k = .ok v)
    (hfail : ∀ j, attempt ≤ j → j < k → retryableFailure ops j) :
    (retryLoop ops delay attempt fuel le).result = .ok v ∧
      (retryLoop ops delay attempt fuel le).attemptsMade = k - attempt + 1 := by
  induction fuel generalizing attempt le with
  | zero => omega
  | succ n ih =>
    by_cases hak : attempt = k
    · subst hak
      simp [retryLoop, hops]
    · obtain ⟨e, he, hn⟩ := hfail attempt (Nat.le_refl _) (by omega)
      have hlt : attempt < k := by omega
      simp only [retryLoop, he, hn, Bool.false_eq_true, if_false]
      have hn0 : ¬ n = 0 := by omega
      rw [if_neg hn0]
      have := ih (attempt + 1) (some e) (by omega) (by omega)
        (fun j h1 h2 => hfail j (by omega) h2)
      simp only
      refine ⟨this.1, ?_⟩
      rw [this.2]
      omega

/-- If attempt `k` fails non-retryably and every earlier attempt in range
is a retryable failure, the loop stops there and rethrows that error. -/
theorem retryLoop_noretry (ops : ℕ → Except String α) (delay attempt fuel k : ℕ)
    (le : Option String) (e : String)
    (hk1 : attempt ≤ k) (hk2 : k < attempt + fuel) (hops : ops k = .error e)
    (hnr : shouldNotRetry e = true)
    (hfail : ∀ j, attempt ≤ j → j < k → retryableFailure ops j) :
    (retryLoop ops delay attempt fuel le).result = .error (some e) ∧
      (retryLoop ops delay attempt fuel le).attemptsMade = k - attempt + 1 := by
  induction fuel generalizing attempt le with
  | zero => omega
  | succ n ih =>
    by_cases hak : attempt = k
    · subst hak
      simp [retryLoop, hops, hnr]
    · obtain ⟨e', he', hn'⟩ := hfail attempt (Nat.le_refl _) (by omega)
      simp only [retryLoop, he', hn', Bool.false_eq_true, if_false]
      have hn0 : ¬ n = 0 := by omega
      rw [if_neg hn0]
      have := ih (attempt + 1) (some e') (by omega) (by omega)
        (fun j h1 h2 => hfail j (by omega) h2)
      simp only
      refine ⟨this.1, ?_⟩
      rw [this.2]
      omega

/-- If every attempt in range is a retryable failure, the loop exhausts its
iterations and rethrows the error of the final attempt. -/
theorem retryLoop_exhaust (ops : ℕ → Except String α) (delay attempt fuel : ℕ)
    (le : Option String)
    (hfuel : 0 < fuel)
    (hfail : ∀ j, attempt ≤ j → j < attempt + fuel → retryableFailure ops j) :
    ∃ e, ops (attempt + fuel - 1) = .error e ∧
      (retryLoop ops delay attempt fuel le).result = .error (some e) ∧
      (retryLoop ops delay attempt fuel le).attemptsMade = fuel := by
  induction fuel generalizing attempt le with
  | zero => omega
  | succ n ih =>
    obtain ⟨e, he, hn⟩ := hfail attempt (Nat.le_refl _) (by omega)
    simp only [retryLoop, he, hn, Bool.false_eq_true, if_false]
    cases n with
    | zero =>
      refine ⟨e, by simpa using he, by simp⟩
    | succ m =>
      rw [if_neg (by omega)]
      obtain ⟨e', he', hres, hatt⟩ := ih (attempt + 1) (some e) (by omega)
        (fun j h1 h2 => hfail j (by omega) (by omega))
      refine ⟨e', by convert he' using 2; omega, ?_, ?_⟩
      · simpa using hres
      · simp only
        omega

/-- C3: a wrapper from `ErrorHandler.createRetryHandler(operation, maxRetries, delay)`
invokes the operation at most `maxRetries` times; the waits between
consecutive attempts are `delay * 1, delay * 2, …` (linear backoff); a
success at attempt `k` (earlier attempts failing retryably) yields that
first successful result after exactly `k` invocations; a non-retryable
failure at attempt `k` stops immediately and rethrows it; if all
`maxRetries` attempts fail retryably, the error of the last attempt is
rethrown. -/
theorem createRetryHandler_spec (ops : ℕ → Except String α) (maxRetries delay : ℕ) :
    (createRetryHandlerRun ops maxRetries delay).attemptsMade ≤ maxRetries
    ∧ (createRetryHandlerRun ops maxRetries delay).waits =
        (List.range ((createRetryHandlerRun ops maxRetries delay).attemptsMade - 1)).map
          (fun i => delay * (1 + i))
    ∧ (∀ k v, 1 ≤ k → k ≤ maxRetries → ops k = .ok v →
        (∀ j, 1 ≤ j → j < k → retryableFailure ops j) →
        (createRetryHandlerRun ops maxRetries delay).result = .ok v ∧
          (createRetryHandlerRun ops maxRetries delay).attemptsMade = k)
    ∧ (∀ k e, 1 ≤ k → k ≤ maxRetries → ops k = .error e → shouldNotRetry e = true →
        (∀ j, 1 ≤ j → j < k → retryableFailure ops j) →
        (createRetryHandlerRun ops maxRetries delay).result = .error (some e) ∧
          (createRetryHandlerRun ops maxRetries delay).attemptsMade = k)
    ∧ (1 ≤ maxRetries → (∀ j, 1 ≤ j → j ≤ maxRetries → retryableFailure ops j) →
        ∃ e, ops maxRetries = .error e ∧
          (createRetryHandlerRun ops maxRetries delay).result = .error (some e) ∧
          (createRetryHandlerRun ops maxRetries delay).attemptsMade = maxRetries) := by
  unfold createRetryHandlerRun
  refine ⟨retryLoop_attempts_le ops delay 1 maxRetries none,
    retryLoop_waits ops delay 1 maxRetries none, ?_, ?_, ?_⟩
  · intro k v hk1 hk2 hops hfail
    have := retryLoop_success ops delay 1 maxRetries k none v hk1 (by omega) hops
      (fun j h1 h2 => hfail j h1 h2)
    exact ⟨this.1, by rw [this.2]; omega⟩
  · intro k e hk1 hk2 hops hnr hfail
    have := retryLoop_noretry ops delay 1 maxRetries k none e hk1 (by omega) hops hnr
      (fun j h1 h2 => hfail j h1 h2)
    exact ⟨this.1, by rw [this.2]; omega⟩
  · intro hm hfail
    have := retryLoop_exhaust ops delay 1 maxRetries none hm
      (fun j h1 h2 => hfail j h1 (by omega))
    obtain ⟨e, he, hres, hatt⟩ := this
    exact ⟨e, by convert he using 2; omega, hres, hatt⟩

/-- A concrete operation: attempt 1 fails retryably, attempt 2 succeeds. -/
def retryDemoOps : ℕ → Except String ℕ
  | 1 => .error "connection reset"
  | _ => .ok 42

/-- C3 witness: the retry specification applied to `retryDemoOps` with
`maxRetries = 3`, `delay = 1000`: the wrapper returns the attempt-2 success
after exactly 2 invocations. -/
theorem createRetryHandler_spec_witness :
    (createRetryHandlerRun retryDemoOps 3 1000).result = .ok 42 ∧
      (createRetryHandlerRun retryDemoOps 3 1000).attemptsMade = 2 :=
  (createRetryHandler_spec retryDemoOps 3 1000).2.2.1 2 42 (by decide) (by decide)
    rfl
    (fun j h1 h2 => by
      interval_cases j
      exact ⟨"connection reset", rfl, by decide⟩)

/-! ## `ErrorHandler.validateCsvInput`  (src/utils/api.js lines 309–344) -/

/-- Result object of `validateCsvInput`. -/
structure CsvValidation where
  valid : Bool
  error : Option String
  advice : List String
  values : Option (List JsNum)
  count : Option ℕ
deriving Repr

/-- The `values` local of `validateCsvInput`:
`csvData.trim().split(',').map(v => v.trim())`. -/
def csvEntries (csvData : String) : List (List Char) :=
  (splitChar ',' (trimChars csvData.toList)).map trimChars

/-- `ErrorHandler.validateCsvInput(csvData)`.  `parseFloat` returning `NaN`
is modelled as `jsParseFloat = none`; in the success payload the `getD`
default plays the role of the unreachable `NaN` (every entry parses there). -/
def validateCsvInput (csvData : String) : CsvValidation :=
  if trimChars csvData.toList = [] then
    { valid := false, error := some "Please enter some data to test",
      advice := ["Enter comma-separated numeric values",
                 "Use the provided examples as reference"],
      values := none, count := none }
  else
    let values := csvEntries csvData
    if values.any (fun v => v = []) then
      { valid := false, error := some "Empty values found in input",
        advice := ["Remove empty values", "Ensure all fields have data"],
        values := none, count := none }
    else
      let nonNumericValues := values.filter (fun v => (jsParseFloat v).isNone)
      if nonNumericValues.length > 0 then
        { valid := false,
          error := some ("Non-numeric values found: " ++
            String.intercalate ", " (nonNumericValues.map (fun v => (⟨v⟩ : String)))),
          advice := ["All values must be numbers",
                     "Remove any text or special characters"],
          values := none, count := none }
      else
        { valid := true, error := none, advice := [],
          values := some (values.map (fun v => (jsParseFloat v).getD (JsNum.num 0))),
          count := some values.length }

example : (validateCsvInput "1, 2.5, -3").valid = true := by decide
example : (validateCsvInput "1, ,3").valid = false := by decide
example : (validateCsvInput "1, abc").error =
    some "Non-numeric values found: abc" := by decide
example : (validateCsvInput "   ").valid = false := by decide

/-- C4: `validateCsvInput` succeeds iff the trimmed input is non-empty, no
comma-separated entry is empty after trimming, and every entry parses as a
number; on success it returns the parsed values and their count; on failure
it returns an error message, which for non-numeric entries lists exactly
the offending entries. -/
theorem validateCsvInput_spec (csvData : String) :
    ((validateCsvInput csvData).valid = true ↔
      trimChars csvData.toList ≠ [] ∧
      (∀ v ∈ csvEntries csvData, v ≠ []) ∧
      (∀ v ∈ csvEntries csvData, (jsParseFloat v).isSome = true))
    ∧ ((validateCsvInput csvData).valid = true →
        (validateCsvInput csvData).values =
          some ((csvEntries csvData).map (fun v => (jsParseFloat v).getD (JsNum.num 0))) ∧
        (validateCsvInput csvData).count = some (csvEntries csvData).length)
    ∧ ((validateCsvInput csvData).valid = false →
        ((validateCsvInput csvData).error).isSome = true)
    ∧ (trimChars csvData.toList ≠ [] → (∀ v ∈ csvEntries csvData, v ≠ []) →
        (csvEntries csvData).filter (fun v => (jsParseFloat v).isNone) ≠ [] →
        (validateCsvInput csvData).error =
          some ("Non-numeric values found: " ++
            String.intercalate ", "
              (((csvEntries csvData).filter (fun v => (jsParseFloat v).isNone)).map
                (fun v => (⟨v⟩ : String))))) := by
  unfold validateCsvInput
  dsimp only
  split_ifs with h1 h2 h3
  · have h1' : trimChars csvData.data = [] := h1
    simp [h1, h1']
  · simp only [List.any_eq_true, decide_eq_true_eq] at h2
    obtain ⟨v, hv, hveq⟩ := h2
    refine ⟨?_, fun h => absurd h (by simp), fun _ => rfl,
      fun _ hne _ => absurd hveq (hne v hv)⟩
    simp only [false_iff]
    rintro ⟨-, hall, -⟩
    exact hall v hv hveq
  · have h3' : (csvEntries csvData).filter (fun v => (jsParseFloat v).isNone) ≠ [] := by
      intro hnil
      rw [hnil] at h3
      simp at h3
    refine ⟨?_, fun h => absurd h (by simp), fun _ => rfl, fun _ _ _ => rfl⟩
    simp only [false_iff]
    rintro ⟨-, -, hall⟩
    obtain ⟨v, hv⟩ := List.exists_mem_of_ne_nil _ h3'
    have hm := List.mem_filter.mp hv
    have hs := hall v hm.1
    have hnone : jsParseFloat v = none := by
      have := hm.2
      simp only [decide_eq_true_eq] at this
      exact Option.isNone_iff_eq_none.mp this
    rw [hnone] at hs
    simp at hs
  · have hne : ∀ v ∈ csvEntries csvData, v ≠ [] := by
      intro v hv hveq
      apply h2
      rw [List.any_eq_true]
      exact ⟨v, hv, by simp [hveq]⟩
    have hall : ∀ v ∈ csvEntries csvData, (jsParseFloat v).isSome = true := by
      intro v hv
      rcases hn : jsParseFloat v with _ | x
      · exfalso
        apply h3
        have hmem : v ∈ (csvEntries csvData).filter (fun v => (jsParseFloat v).isNone) :=
          List.mem_filter.mpr ⟨hv, by simp [hn]⟩
        have := List.length_pos.mpr (List.ne_nil_of_mem hmem)
        omega
      · simp [hn]
    refine ⟨?_, fun _ => ⟨rfl, rfl⟩, fun h => absurd h (by simp), ?_⟩
    · simp only [true_iff]
      exact ⟨h1, hne, hall⟩
    · intro _ _ hfilter
      exfalso
      apply hfilter
      apply List.eq_nil_iff_forall_not_mem.mpr
      intro v hv
      have hm := List.mem_filter.mp hv
      have hs := hall v hm.1
      have hnone : jsParseFloat v = none := by
        have := hm.2
        simp only [decide_eq_true_eq] at this
        exact Option.isNone_iff_eq_none.mp this
      rw [hnone] at hs
      simp at hs

/-- C4 witness: the specification evaluated at `"1, 2.5"`. -/
theorem validateCsvInput_spec_witness :
    (validateCsvInput "1, 2.5").valid = true ∧
      (validateCsvInput "1, 2.5").count = some 2 := by
  have h := validateCsvInput_spec "1, 2.5"
  have hv : (validateCsvInput "1, 2.5").valid = true := h.1.mpr (by decide)
  refine ⟨hv, ?_⟩
  rw [(h.2.1 hv).2]
  decide

/-! ## `validateTrainingConfig`  (src/utils/api.js lines 685–725)

The configuration object built by `TrainingConfig.js`.  JS `!x` on a
number field is `x = 0` (the fields are numbers here); `!config.layers`
is false for any array, so only `layers.length < 1` remains of that check. -/

/-- One layer descriptor of the configuration (`{ type, units/filters/…, activation }`). -/
structure LayerConfig where
  type : String
  units : Option ℕ := none
  filters : Option ℕ := none
  kernelSize : Option ℕ := none
  poolSize : Option ℕ := none
  activation : Option String := none
deriving DecidableEq, Repr

/-- The training configuration object (see the `useState` initialiser in
`TrainingConfig.js`). -/
structure TrainConfig where
  modelType : String
  layers : List LayerConfig
  optimizer : String
  learningRate : ℚ
  batchSize : ℚ
  epochs : ℚ
  validationSplit : ℚ
  taskType : String
deriving DecidableEq, Repr

/-- Result shape `{ isValid, errors }` of `validateTrainingConfig` and
`validateFile`. -/
structure ValidationResult where
  isValid : Bool
  errors : List String
deriving DecidableEq, Repr

/-- `validateTrainingConfig(config)`: one range check per numeric field,
one error string per violated check, plus the layer-count check. -/
def validateTrainingConfig (config : TrainConfig) : ValidationResult :=
  let errors :=
    (if config.epochs = 0 ∨ config.epochs < 1 ∨ config.epochs > 1000 then
      ["Epochs must be between 1 and 1000"] else []) ++
    (if config.batchSize = 0 ∨ config.batchSize < 1 ∨ config.batchSize > 512 then
      ["Batch size must be between 1 and 512"] else []) ++
    (if config.learningRate = 0 ∨ config.learningRate ≤ 0 ∨ config.learningRate > 1 then
      ["Learning rate must be between 0 and 1"] else []) ++
    (if config.validationSplit = 0 ∨ config.validationSplit < (0.1 : ℚ) ∨
        config.validationSplit > (0.5 : ℚ) then
      ["Validation split must be between 0.1 and 0.5"] else []) ++
    (if config.layers.length < 1 then ["At least one layer is required"] else [])
  { isValid := errors.length = 0, errors := errors }

/-- A field value `x` with `!x || x < lo || x > hi` (for `0 < lo`) violates
exactly the range `[lo, hi]`. -/
theorem falsyRangeCheck_iff (x lo hi : ℚ) (hlo : 0 < lo) :
    (x = 0 ∨ x < lo ∨ x > hi) ↔ ¬(lo ≤ x ∧ x ≤ hi) := by
  constructor
  · rintro (rfl | h | h) ⟨ha, hb⟩ <;> linarith
  · intro h
    by_cases hx : lo ≤ x
    · right; right
      by_contra hgt
      exact h ⟨hx, by linarith⟩
    · right; left; linarith

/-- A field value `x` with `!x || x <= 0 || x > hi` violates exactly the
half-open range `(0, hi]`. -/
theorem falsyPosCheck_iff (x hi : ℚ) :
    (x = 0 ∨ x ≤ 0 ∨ x > hi) ↔ ¬(0 < x ∧ x ≤ hi) := by
  constructor
  · rintro (rfl | h | h) ⟨ha, hb⟩ <;> linarith
  · intro h
    by_cases hx : 0 < x
    · right; right
      by_contra hgt
      exact h ⟨hx, by linarith⟩
    · right; left; linarith

/-- C2: `validateTrainingConfig` reports `isValid` with an empty error list
iff epochs ∈ [1,1000], batch size ∈ [1,512], learning rate ∈ (0,1],
validation split ∈ [0.1,0.5] and at least one layer is present; the number
of errors equals the number of violated checks. -/
theorem validateTrainingConfig_spec (c : TrainConfig) :
    ((validateTrainingConfig c).isValid = true ∧ (validateTrainingConfig c).errors = [] ↔
      (1 ≤ c.epochs ∧ c.epochs ≤ 1000) ∧ (1 ≤ c.batchSize ∧ c.batchSize ≤ 512) ∧
      (0 < c.learningRate ∧ c.learningRate ≤ 1) ∧
      ((0.1 : ℚ) ≤ c.validationSplit ∧ c.validationSplit ≤ (0.5 : ℚ)) ∧
      1 ≤ c.layers.length)
    ∧ (validateTrainingConfig c).errors.length =
        (if ¬(1 ≤ c.epochs ∧ c.epochs ≤ 1000) then 1 else 0) +
        (if ¬(1 ≤ c.batchSize ∧ c.batchSize ≤ 512) then 1 else 0) +
        (if ¬(0 < c.learningRate ∧ c.learningRate ≤ 1) then 1 else 0) +
        (if ¬((0.1 : ℚ) ≤ c.validationSplit ∧ c.validationSplit ≤ (0.5 : ℚ)) then 1 else 0) +
        (if c.layers.length < 1 then 1 else 0) := by
  unfold validateTrainingConfig
  simp only [falsyRangeCheck_iff c.epochs 1 1000 (by norm_num),
    falsyRangeCheck_iff c.batchSize 1 512 (by norm_num),
    falsyPosCheck_iff c.learningRate 1,
    falsyRangeCheck_iff c.validationSplit (0.1 : ℚ) (0.5 : ℚ) (by norm_num)]
  by_cases h1 : 1 ≤ c.epochs ∧ c.epochs ≤ 1000 <;>
    by_cases h2 : 1 ≤ c.batchSize ∧ c.batchSize ≤ 512 <;>
    by_cases h3 : 0 < c.learningRate ∧ c.learningRate ≤ 1 <;>
    by_cases h4 : (0.1 : ℚ) ≤ c.validationSplit ∧ c.validationSplit ≤ (0.5 : ℚ) <;>
    by_cases h5 : c.layers.length < 1 <;>
    simp_all <;> exact List.length_pos.mpr h5

/-- C2 witness: a fully in-range configuration validates with no errors. -/
theorem validateTrainingConfig_spec_witness :
    (validateTrainingConfig
      { modelType := "mlp",
        layers := [{ type := "dense", units := some 64, activation := some "relu" }],
        optimizer := "adam", learningRate := 0.001, batchSize := 32,
        epochs := 100, validationSplit := 0.2, taskType := "classification" }).isValid
      = true ∧
    (validateTrainingConfig
      { modelType := "mlp",
        layers := [{ type := "dense", units := some 64, activation := some "relu" }],
        optimizer := "adam", learningRate := 0.001, batchSize := 32,
        epochs := 100, validationSplit := 0.2, taskType := "classification" }).errors
      = [] :=
  (validateTrainingConfig_spec _).1.mpr
    ⟨⟨by norm_num, by norm_num⟩, ⟨by norm_num, by norm_num⟩,
     ⟨by norm_num, by norm_num⟩, ⟨by norm_num, by norm_num⟩, by simp⟩

/-! ## `validateFile`  (src/utils/api.js lines 627–659) -/

/-- The parts of a browser `File` object read by `validateFile`. -/
structure JsFile where
  name : String
  size : ℕ
  type : String
deriving DecidableEq, Repr

/-- The `allowedTypes` array of `validateFile`. -/
def allowedTypes : List String :=
  ["text/csv", "image/png", "image/jpeg", "image/jpg", "application/zip"]

/-- The `allowedExtensions` array of `validateFile`. -/
def allowedExtensions : List String := ["csv", "png", "jpg", "jpeg", "zip"]

/-- `file.name.split(".").pop().toLowerCase()`: the last dot-separated part
of the filename, lowercased (`"a"` for a dotless name `"a"`). -/
def fileExtension (name : String) : String :=
  strLower ⟨(splitChar '.' name.toList).getLastD []⟩

/-- `validateFile(file, maxSize)` (JS default `maxSize` is
`1024 * 1024 * 1024`): size-ceiling check, then MIME allow-list with a
lowercased-extension fallback. -/
def validateFile (file : JsFile) (maxSize : ℕ := 1024 * 1024 * 1024) : ValidationResult :=
  let sizeErrors :=
    if file.size > maxSize then
      ["File size exceeds " ++ toString (maxSize / (1024 * 1024)) ++ "MB limit"]
    else []
  let typeErrors :=
    if allowedTypes.contains file.type then []
    else if allowedExtensions.contains (fileExtension file.name) then []
    else ["File type not supported. Allowed: " ++ String.intercalate ", " allowedExtensions]
  let errors := sizeErrors ++ typeErrors
  { isValid := errors.length = 0, errors := errors }

example : (validateFile { name := "data.CSV", size := 10, type := "application/blob" }
    (1024 * 1024)).isValid = true := by decide
example : (validateFile { name := "run.exe", size := 10, type := "application/blob" }
    (1024 * 1024)).isValid = false := by decide

/-- C7: `validateFile` accepts iff the size is within the ceiling and
either the MIME type or the lowercased filename extension is allowed; each
violated check contributes exactly one error message. -/
theorem validateFile_spec (file : JsFile) (maxSize : ℕ) :
    ((validateFile file maxSize).isValid = true ↔
      file.size ≤ maxSize ∧
      (file.type ∈ allowedTypes ∨ fileExtension file.name ∈ allowedExtensions))
    ∧ (validateFile file maxSize).errors.length =
        (if file.size > maxSize then 1 else 0) +
        (if file.type ∈ allowedTypes ∨ fileExtension file.name ∈ allowedExtensions
          then 0 else 1) := by
  unfold validateFile
  dsimp only
  split_ifs with hs ht he <;> simp_all

/-- C7 witness: the specification applied to an oversized PNG: exactly one
error (the size check), and the type check passes. -/
theorem validateFile_spec_witness :
    (validateFile { name := "big.png", size := 2000000, type := "image/png" }
      1000000).isValid = false ∧
    (validateFile { name := "big.png", size := 2000000, type := "image/png" }
      1000000).errors.length = 1 := by
  have h := validateFile_spec { name := "big.png", size := 2000000, type := "image/png" }
    1000000
  constructor
  · rcases hb : (validateFile { name := "big.png", size := 2000000, type := "image/png" }
      1000000).isValid
    · rfl
    · exact absurd ((h.1.mp hb).1) (by decide)
  · rw [h.2]
    decide

/-! ## `addLayer` / `removeLayer`  (src/components/TrainingConfig.js lines 127–157) -/

/-- The fresh layer `addLayer` creates for a CNN configuration. -/
def newCnnLayer : LayerConfig :=
  { type := "conv2d", filters := some 32, kernelSize := some 3, activation := some "relu" }

/-- The fresh layer `addLayer` creates for an MLP configuration. -/
def newMlpLayer : LayerConfig :=
  { type := "dense", units := some 64, activation := some "relu" }

/-- `[...prev.layers.slice(0, -1), newLayer, prev.layers[prev.layers.length - 1]]`.
For the configurations the app produces `layers` is never empty here; on
`[]` this model yields `[newLayer]` where JS would yield
`[newLayer, undefined]`. -/
def insertBeforeLast (layers : List LayerConfig) (newLayer : LayerConfig) :
    List LayerConfig :=
  layers.dropLast ++ [newLayer] ++ layers.drop (layers.length - 1)

/-- `addLayer()`: CNN and MLP configurations get their fresh default layer
inserted before the output layer; other model types are rejected with a
toast and the configuration is unchanged. -/
def addLayer (config : TrainConfig) : TrainConfig :=
  if config.modelType = "cnn" then
    { config with layers := insertBeforeLast config.layers newCnnLayer }
  else if config.modelType = "mlp" then
    { config with layers := insertBeforeLast config.layers newMlpLayer }
  else config

/-- `removeLayer(index)`: no-op for the perceptron; otherwise
`layers.filter((_, i) => i !== index)` guarded by `layers.length > 2`. -/
def removeLayer (config : TrainConfig) (index : ℕ) : TrainConfig :=
  if config.modelType = "perceptron" then config
  else if config.layers.length > 2 then
    { config with layers := config.layers.eraseIdx index }
  else config

/-- A non-empty list dropped to its final element. -/
theorem drop_length_sub_one {α : Type} (l : List α) (h : l ≠ []) :
    l.drop (l.length - 1) = [l.getLast h] := by
  induction l with
  | nil => exact absurd rfl h
  | cons a t ih =>
    cases t with
    | nil => simp
    | cons b u =>
      have := ih (by simp)
      simp only [List.length_cons, Nat.add_sub_cancel] at this ⊢
      rw [List.getLast_cons (by simp)]
      simpa using this

/-- C10: for MLP and CNN configurations with a non-empty layer list,
`addLayer` inserts the fresh layer immediately before the last layer, so
the last layer is preserved and the count grows by one; `removeLayer` is
the identity when at most two layers remain; for the perceptron both
operations leave the layer list unchanged. -/
theorem layerEditing_spec (c : TrainConfig) (index : ℕ) :
    ((c.modelType = "mlp" ∨ c.modelType = "cnn") → ∀ h : c.layers ≠ [],
      (addLayer c).layers =
        c.layers.dropLast ++
          [if c.modelType = "cnn" then newCnnLayer else newMlpLayer, c.layers.getLast h] ∧
      (addLayer c).layers.length = c.layers.length + 1 ∧
      (addLayer c).layers.getLast? = c.layers.getLast?)
    ∧ (c.layers.length ≤ 2 → (removeLayer c index).layers = c.layers)
    ∧ (c.modelType = "perceptron" →
        (addLayer c).layers = c.layers ∧ (removeLayer c index).layers = c.layers) := by
  refine ⟨?_, ?_, ?_⟩
  · rintro hmt h
    have hins : ∀ nl, insertBeforeLast c.layers nl =
        c.layers.dropLast ++ [nl, c.layers.getLast h] := by
      intro nl
      unfold insertBeforeLast
      rw [drop_length_sub_one c.layers h]
      simp
    have hpos : 0 < c.layers.length := List.length_pos.mpr h
    have hlast : some (c.layers.getLast h) = c.layers.getLast? :=
      (List.getLast?_eq_getLast _ h).symm
    rcases hmt with hm | hm <;> simp [addLayer, hm, hins] <;>
      exact ⟨by omega, hlast⟩
  · intro hle
    unfold removeLayer
    split_ifs with h1 h2
    · rfl
    · omega
    · rfl
  · intro hm
    constructor
    · simp [addLayer, hm]
    · simp [removeLayer, hm]

/-- A three-layer MLP configuration used to instantiate the layer-editing
specification. -/
def mlpDemoConfig : TrainConfig :=
  { modelType := "mlp",
    layers := [{ type := "dense", units := some 64, activation := some "relu" },
               { type := "dense", units := some 32, activation := some "relu" },
               { type := "dense", units := some 10, activation := some "softmax" }],
    optimizer := "adam", learningRate := 0.001, batchSize := 32,
    epochs := 100, validationSplit := 0.2, taskType := "classification" }

/-- C10 witness: the layer-editing specification at a concrete MLP
configuration: adding grows the three layers to four keeping the softmax
output last, and the perceptron/short-list clauses instantiate. -/
theorem layerEditing_spec_witness :
    (addLayer mlpDemoConfig).layers.length = 4 ∧
      (addLayer mlpDemoConfig).layers.getLast? = mlpDemoConfig.layers.getLast? := by
  have h := (layerEditing_spec mlpDemoConfig 0).1 (Or.inl rfl) (by decide)
  exact ⟨by rw [h.2.1]; rfl, h.2.2⟩

/-! ## Grad-CAM sample navigation  (src/components/GradCAMViewer.js)

The viewer's navigation state is the `currentIndex` React state
(`useState(0)`), modelled as an integer because the JS arithmetic
`Math.max(0, i - 1)` / `Math.min(ns - 1, i + 1)` lives in ℤ.  The three
controls are the previous/next buttons and the per-sample dot buttons
(rendered only for indices `0 … num_samples - 1`). -/

/-- One sample of `gradcamData.samples`. -/
structure GradSample where
  image : String
  heatmap : String
  overlay : String
  class_name : String
  confidence : ℚ
deriving DecidableEq, Repr

/-- One click on the viewer's navigation controls. -/
inductive NavEvent where
  | previous
  | next
  | dot (k : ℕ)
deriving DecidableEq, Repr

/-- The `setCurrentIndex` call performed by each control, for
`ns = gradcamData.num_samples`. -/
def navStep (ns : ℤ) (i : ℤ) : NavEvent → ℤ
  | .previous => max 0 (i - 1)
  | .next => min (ns - 1) (i + 1)
  | .dot k => (k : ℤ)

/-- A click that the rendered UI can produce: dot buttons exist only for
`idx` in `Array.from({ length: num_samples })`. -/
def validNavEvent (ns : ℤ) : NavEvent → Prop
  | .dot k => (k : ℤ) < ns
  | _ => True

/-- The index reached from the initial `useState(0)` after a sequence of
navigation clicks. -/
def navRun (ns : ℤ) (events : List NavEvent) : ℤ :=
  events.foldl (navStep ns) 0

/-- One navigation step preserves the in-range invariant when at least one
sample exists. -/
theorem navStep_bounds (ns i : ℤ) (e : NavEvent) (hns : 1 ≤ ns)
    (hi : 0 ≤ i ∧ i < ns) (he : validNavEvent ns e) :
    0 ≤ navStep ns i e ∧ navStep ns i e < ns := by
  cases e with
  | previous => simp only [navStep]; omega
  | next => simp only [navStep]; omega
  | dot k =>
    simp only [navStep, validNavEvent] at he ⊢
    omega

/-- Auxiliary foldl invariant for `navRun`. -/
theorem navFold_bounds (ns : ℤ) (events : List NavEvent) (i : ℤ) (hns : 1 ≤ ns)
    (hi : 0 ≤ i ∧ i < ns) (hv : ∀ e ∈ events, validNavEvent ns e) :
    0 ≤ events.foldl (navStep ns) i ∧ events.foldl (navStep ns) i < ns := by
  induction events generalizing i with
  | nil => simpa using hi
  | cons e rest ih =>
    simp only [List.foldl_cons]
    exact ih (navStep ns i e)
      (navStep_bounds ns i e hns hi (hv e (List.mem_cons_self e rest)))
      (fun e' he' => hv e' (List.mem_cons_of_mem e he'))

/-- C9: starting from index 0, any sequence of previous/next/dot clicks
keeps the current index within `[0, num_samples)`; hence when the reported
`num_samples` equals the length of `samples`, the lookup
`samples[currentIndex]` is in bounds. -/
theorem gradcamNavigation_safe (ns : ℤ) (events : List NavEvent)
    (hns : 1 ≤ ns) (hv : ∀ e ∈ events, validNavEvent ns e) :
    (0 ≤ navRun ns events ∧ navRun ns events < ns) ∧
    ∀ samples : List GradSample, (samples.length : ℤ) = ns →
      (navRun ns events).toNat < samples.length := by
  have hb := navFold_bounds ns events 0 hns ⟨le_refl 0, by omega⟩ hv
  refine ⟨hb, ?_⟩
  intro samples hlen
  have h1 := hb.1
  have h2 := hb.2
  unfold navRun
  omega

/-- C9 witness: the navigation specification at `num_samples = 3` with a
concrete click sequence ending in bounds. -/
theorem gradcamNavigation_safe_witness :
    0 ≤ navRun 3 [NavEvent.next, NavEvent.next, NavEvent.next, NavEvent.previous] ∧
      navRun 3 [NavEvent.next, NavEvent.next, NavEvent.next, NavEvent.previous] < 3 :=
  (gradcamNavigation_safe 3 [NavEvent.next, NavEvent.next, NavEvent.next, NavEvent.previous]
    (by norm_num)
    (fun e he => by
      simp only [List.mem_cons, List.not_mem_nil, or_false] at he
      rcases he with rfl | rfl | rfl | rfl <;> trivial)).1

/-! ## `pollTrainingProgress`  (src/components/TrainingResults.js lines 102–140)

One poll response is a JSON object `data`; absent fields are `none`.  The
React `set*` state of the component that the poll branch touches is
gathered in `RunState`.  `setTimeout(pollTrainingProgress, 1000)` is
recorded as `nextPollDelayMs = some 1000`; the `onTrainingComplete`
invocations of the response are recorded in order in `completions`. -/

/-- One element of the server-sent `history` array (a chart row). -/
structure EpochMetric where
  epoch : ℚ
  loss : ℚ
  accuracy : ℚ
  val_loss : ℚ
  val_accuracy : ℚ
deriving DecidableEq, Repr

/-- One element of the server-sent `iteration_details` array. -/
structure IterationDetail where
  batch : ℚ
  loss : ℚ
  accuracy : ℚ
deriving DecidableEq, Repr

/-- The server-sent `results` object (opaque to the client beyond display). -/
structure TrainResults where
  accuracy : Option ℚ := none
  loss : Option ℚ := none
deriving DecidableEq, Repr

/-- The body of one `/api/training-progress` response. -/
structure ProgressData where
  status : String
  epoch : Option ℚ := none
  current_phase : Option ℚ := none
  history : Option (List EpochMetric) := none
  current_batch : Option ℚ := none
  total_batches : Option ℚ := none
  batch_loss : Option ℚ := none
  batch_accuracy : Option ℚ := none
  iteration_details : Option (List IterationDetail) := none
  results : Option TrainResults := none
  error_message : Option String := none
deriving DecidableEq, Repr

/-- JS `x || d` on a possibly-absent number: `undefined` and `0` are falsy. -/
def jsOrQ (v : Option ℚ) (d : ℚ) : ℚ :=
  match v with
  | some q => if q = 0 then d else q
  | none => d

/-- The component state written by `pollTrainingProgress`
(`currentEpoch`, `currentPhase`, `trainingData`, `currentBatch`,
`totalBatches`, `batchLoss`, `batchAccuracy`, `iterationDetails`).
`setCurrentEpoch(data.epoch)` can store `undefined`, hence the `Option`. -/
structure RunState where
  currentEpoch : Option ℚ
  currentPhase : ℚ
  trainingData : List EpochMetric
  currentBatch : ℚ
  totalBatches : ℚ
  batchLoss : ℚ
  batchAccuracy : ℚ
  iterationDetails : List IterationDetail
deriving DecidableEq, Repr

/-- The argument `onTrainingComplete` receives on `status === 'completed'`:
`{ ...data, results: data.results || {}, final_epoch: data.epoch || trainingConfig.epochs }`. -/
structure CompletedResult where
  data : ProgressData
  results : TrainResults
  final_epoch : ℚ
deriving DecidableEq, Repr

/-- Observable effect of handling one poll response. -/
structure PollOutcome where
  state : RunState
  nextPollDelayMs : Option ℕ
  completions : List (Option CompletedResult)
deriving DecidableEq, Repr

/-- `pollTrainingProgress` handling one parsed response `d` (the fetch
itself and the network-error catch are outside this model). -/
def pollTrainingProgress (cfg : TrainConfig) (s : RunState) (d : ProgressData) :
    PollOutcome :=
  if d.status = "training" then
    { state :=
        { currentEpoch := d.epoch,
          currentPhase := jsOrQ d.current_phase 1,
          trainingData := d.history.getD [],
          currentBatch := jsOrQ d.current_batch 0,
          totalBatches := jsOrQ d.total_batches 0,
          batchLoss := jsOrQ d.batch_loss 0,
          batchAccuracy := jsOrQ d.batch_accuracy 0,
          iterationDetails := d.iteration_details.getD [] },
      nextPollDelayMs := some 1000,
      completions := [] }
  else if d.status = "completed" then
    { state :=
        { s with
          currentEpoch := some (jsOrQ d.epoch cfg.epochs),
          trainingData := d.history.getD [] },
      nextPollDelayMs := none,
      completions := [some { data := d, results := d.results.getD {},
                             final_epoch := jsOrQ d.epoch cfg.epochs }] }
  else if d.status = "error" then
    { state := s, nextPollDelayMs := none, completions := [none] }
  else if d.status = "stopped" then
    { state := s, nextPollDelayMs := none, completions := [none] }
  else
    { state := s, nextPollDelayMs := none, completions := [] }

/-- C1: on a `training` response exactly one further poll is scheduled
after 1000 ms and the completion callback is not invoked; on a terminal
response no poll is scheduled and the callback is invoked exactly once —
with the merged result object for `completed`, with `null` for `error` and
`stopped`. -/
theorem pollTrainingProgress_spec (cfg : TrainConfig) (s : RunState) (d : ProgressData) :
    (d.status = "training" →
      (pollTrainingProgress cfg s d).nextPollDelayMs = some 1000 ∧
      (pollTrainingProgress cfg s d).completions = [])
    ∧ (d.status = "completed" →
      (pollTrainingProgress cfg s d).nextPollDelayMs = none ∧
      (pollTrainingProgress cfg s d).completions =
        [some { data := d, results := d.results.getD {},
                final_epoch := jsOrQ d.epoch cfg.epochs }])
    ∧ ((d.status = "error" ∨ d.status = "stopped") →
      (pollTrainingProgress cfg s d).nextPollDelayMs = none ∧
      (pollTrainingProgress cfg s d).completions = [none]) := by
  refine ⟨fun h => ?_, fun h => ?_, fun h => ?_⟩
  · simp [pollTrainingProgress, h]
  · simp [pollTrainingProgress, h]
  · rcases h with h | h <;> simp [pollTrainingProgress, h]

/-- C1 witness: the poll specification on one concrete `training` response
and one concrete `stopped` response. -/
theorem pollTrainingProgress_spec_witness :
    ((pollTrainingProgress mlpDemoConfig
        ⟨none, 1, [], 0, 0, 0, 0, []⟩ { status := "training" }).nextPollDelayMs
      = some 1000) ∧
    ((pollTrainingProgress mlpDemoConfig
        ⟨none, 1, [], 0, 0, 0, 0, []⟩ { status := "stopped" }).completions = [none]) :=
  ⟨((pollTrainingProgress_spec mlpDemoConfig ⟨none, 1, [], 0, 0, 0, 0, []⟩
      { status := "training" }).1 rfl).1,
   ((pollTrainingProgress_spec mlpDemoConfig ⟨none, 1, [], 0, 0, 0, 0, []⟩
      { status := "stopped" }).2.2 (Or.inr rfl)).2⟩

/-! ## Application state transitions  (src/App.js)

`App` owns `uploadedData`, `trainingConfig`, `trainingResults`,
`isTraining`, `currentStep`.  The initial `useState({})` configuration is
modelled as `none`; `handleTrainingStart` installs the submitted
configuration; from then on the only operations that run until `resetApp`
are the poll responses (which call `onTrainingComplete` =
`handleTrainingComplete`, also the route taken by `handleStopTraining`). -/

/-- The upload descriptor as far as `App` inspects it. -/
structure UploadDescriptor where
  type : String
  session_id : Option String := none
deriving DecidableEq, Repr

/-- The `App` component state relevant to training. -/
structure AppState where
  currentStep : ℕ
  uploadedData : Option UploadDescriptor
  trainingConfig : Option TrainConfig
  trainingResults : Option (Option CompletedResult)
  isTraining : Bool
deriving DecidableEq, Repr

/-- `handleTrainingStart(config)`: with a configuration and uploaded data
present, install the configuration, move to step 3 and mark training;
otherwise the thrown error is caught and only error display changes. -/
def handleTrainingStart (a : AppState) (config : Option TrainConfig) : AppState :=
  match config, a.uploadedData with
  | some cfg, some _ =>
    { a with trainingConfig := some cfg, currentStep := 3, isTraining := true }
  | _, _ => a

/-- `handleTrainingComplete(results)`: store the results (possibly `null`)
and clear the training flag. -/
def handleTrainingComplete (a : AppState) (results : Option CompletedResult) : AppState :=
  { a with trainingResults := some results, isTraining := false }

/-- `resetApp()`: back to step 1 with all training state cleared. -/
def resetApp (a : AppState) : AppState :=
  { a with
    currentStep := 1
    uploadedData := none
    trainingConfig := none
    trainingResults := none
    isTraining := false }

/-- One poll response applied at application level: the component updates
its run state and each `onTrainingComplete` invocation updates the app
state. -/
def applyPollResponse (cfg : TrainConfig) (a : AppState) (s : RunState)
    (d : ProgressData) : AppState × RunState × Option ℕ :=
  let o := pollTrainingProgress cfg s d
  (o.completions.foldl handleTrainingComplete a, o.state, o.nextPollDelayMs)

/-- Any sequence of completion callbacks leaves configuration, upload and
step untouched. -/
theorem foldl_handleTrainingComplete_frame (a : AppState)
    (l : List (Option CompletedResult)) :
    (l.foldl handleTrainingComplete a).trainingConfig = a.trainingConfig ∧
    (l.foldl handleTrainingComplete a).uploadedData = a.uploadedData ∧
    (l.foldl handleTrainingComplete a).currentStep = a.currentStep := by
  induction l generalizing a with
  | nil => exact ⟨rfl, rfl, rfl⟩
  | cons r rest ih =>
    simpa [handleTrainingComplete] using
      ih (handleTrainingComplete a r)

/-- C8: once training has started, neither a poll response (for any
status) nor a completion callback changes the submitted training
configuration — or the uploaded data or the wizard step; the poll mutates
only the run state returned alongside. -/
theorem trainingConfig_immutable (cfg : TrainConfig) (a : AppState) (s : RunState)
    (d : ProgressData) (r : Option CompletedResult) :
    (applyPollResponse cfg a s d).1.trainingConfig = a.trainingConfig ∧
    (applyPollResponse cfg a s d).1.uploadedData = a.uploadedData ∧
    (applyPollResponse cfg a s d).1.currentStep = a.currentStep ∧
    (handleTrainingComplete a r).trainingConfig = a.trainingConfig := by
  have h := foldl_handleTrainingComplete_frame a (pollTrainingProgress cfg s d).completions
  exact ⟨h.1, h.2.1, h.2.2, rfl⟩

/-! ## Session headers in the testing panel  (src/components/ModelTesting.js)

Each handler is modelled by the request it issues, as a function of the
component state it reads (`sessionId`, the inputs, and the cached
`csvValidation`).  `none` means the handler returns before issuing a
request.  `loadTrainingDataInfo` is also invoked from `handleModelSelect`
immediately after `setSessionId(data.session_id)`; that call still sees
the `sessionId` of the render that created the handler (the React state
update only takes effect on the next render), which
`modelSelectIntrospectionRequest` records explicitly. -/

/-- The parts of a `fetch` call the session-header claim is about. -/
structure HttpRequest where
  url : String
  method : String
  headers : List (String × String)
deriving DecidableEq, Repr

/-- `handleCsvTest()`: early returns for empty input, missing session and
a cached failed validation; otherwise POST `/api/test-csv` with the
session header. -/
def csvTestRequest (sessionId : Option String) (csvInput : String)
    (csvValidation : Option Bool) : Option HttpRequest :=
  if jsTrim csvInput = "" then none
  else
    match sessionId with
    | none => none
    | some sid =>
      match csvValidation with
      | some false => none
      | _ => some ⟨"/api/test-csv", "POST",
          [("Content-Type", "application/json"), ("X-Session-ID", sid)]⟩

/-- `handleImageTest()`: early returns for a missing image or session;
otherwise POST `/api/test-image` (FormData) with the session header. -/
def imageTestRequest (sessionId : Option String) (hasImage : Bool) : Option HttpRequest :=
  if !hasImage then none
  else
    match sessionId with
    | none => none
    | some sid => some ⟨"/api/test-image", "POST", [("X-Session-ID", sid)]⟩

/-- `loadTrainingDataInfo(modelId)`: GET with the session header only when
the captured `sessionId` is set. -/
def trainingDataInfoRequest (sessionId : Option String) (modelId : String) : HttpRequest :=
  { url := "/api/training-data-info/" ++ modelId, method := "GET",
    headers :=
      match sessionId with
      | some sid => [("X-Session-ID", sid)]
      | none => [] }

/-- `closeSession()`: no-op without a session; otherwise POST
`/api/close-session` with the session header. -/
def closeSessionRequest (sessionId : Option String) : Option HttpRequest :=
  match sessionId with
  | none => none
  | some sid => some ⟨"/api/close-session", "POST",
      [("Content-Type", "application/json"), ("X-Session-ID", sid)]⟩

/-- The `loadTrainingDataInfo(modelId)` call issued by `handleModelSelect`
after a successful load that returned `newSessionId`: the closure still
reads the previous render's `sessionId`. -/
def modelSelectIntrospectionRequest (prevSessionId : Option String)
    (newSessionId : String) (modelId : String) : HttpRequest :=
  trainingDataInfoRequest prevSessionId modelId

/-- C6 counterexample: on the first model load (no previous session), the
training-data introspection request issued right after the session id
`"s1"` was received and stored carries no `X-Session-ID` header at all. -/
theorem sessionHeader_counterexample :
    (modelSelectIntrospectionRequest none "s1" "m1").headers = [] ∧
    ((modelSelectIntrospectionRequest none "s1" "m1").headers.lookup "X-Session-ID"
      ≠ some "s1") := by decide

/-- C6 (amended): with a session id held, the CSV-prediction,
image-prediction and session-close requests always carry it in
`X-Session-ID`, and a directly invoked training-data introspection carries
the id held at invocation time; the introspection triggered by a model
load, however, carries the previously held session id (absent on first
load), not the newly assigned one. -/
theorem sessionHeader_spec (sid : String) (csvInput : String)
    (csvValidation : Option Bool) (hasImage : Bool) (modelId : String)
    (prev : Option String) :
    (∀ r, csvTestRequest (some sid) csvInput csvValidation = some r →
      ("X-Session-ID", sid) ∈ r.headers)
    ∧ (∀ r, imageTestRequest (some sid) hasImage = some r →
      ("X-Session-ID", sid) ∈ r.headers)
    ∧ (∀ r, closeSessionRequest (some sid) = some r →
      ("X-Session-ID", sid) ∈ r.headers)
    ∧ ("X-Session-ID", sid) ∈ (trainingDataInfoRequest (some sid) modelId).headers
    ∧ modelSelectIntrospectionRequest prev sid modelId =
        trainingDataInfoRequest prev modelId := by
  refine ⟨?_, ?_, ?_, ?_, rfl⟩
  · intro r hr
    unfold csvTestRequest at hr
    split_ifs at hr
    rcases hcv : csvValidation with _ | b
    · rw [hcv] at hr
      simp only at hr
      cases hr
      simp
    · rcases b with _ | _ <;> rw [hcv] at hr <;> simp only at hr
      · cases hr
      · cases hr
        simp
  · intro r hr
    unfold imageTestRequest at hr
    split_ifs at hr
    simp only at hr
    cases hr
    simp
  · intro r hr
    unfold closeSessionRequest at hr
    simp only at hr
    cases hr
    simp
  · unfold trainingDataInfoRequest
    simp

/-- C6 witness: the amended specification instantiated at session `"s1"`:
the concrete CSV-test request exists and carries the header, as does the
direct introspection request. -/
theorem sessionHeader_spec_witness :
    ("X-Session-ID", "s1") ∈ (trainingDataInfoRequest (some "s1") "m1").headers ∧
    ∃ r, csvTestRequest (some "s1") "1,2,3" none = some r ∧
      ("X-Session-ID", "s1") ∈ r.headers := by
  have h := sessionHeader_spec "s1" "1,2,3" none true "m1" none
  refine ⟨h.2.2.2.1, ?_⟩
  rcases hr : csvTestRequest (some "s1") "1,2,3" none with _ | r
  · exact absurd hr (by decide)
  · exact ⟨r, rfl, h.1 r hr⟩
